import Mathlib

/-!
# tui-hub: menu state machine, process launcher, config loader, renderer

A shallow embedding of `main.go`.  Go `int` fields are `Int` (every increment
and decrement in the source sits behind a guard that keeps the value between
`-1` and a slice length, so 64-bit wraparound cannot occur).  A Go run-time
panic is an `Except.error`.  `tea.Cmd` values are data; `nil` is `none`.
-/

namespace TuiHub

/-! ## Data model -/

/-- Go: `type MenuState int`. -/
abbrev MenuState := Int

def MainMenu : MenuState := 0
def TUIAppsMenu : MenuState := 1
def StatsMenu : MenuState := 2
def OptionsMenu : MenuState := 3
def CreditsMenu : MenuState := 4

/-- Go: `GameConfig`; the map of arbitrary values is kept as string pairs. -/
structure GameConfig where
  Data : List (String × String)
  deriving DecidableEq, Repr

structure GameStats where
  TimesPlayed : Int
  TotalTime : String
  HighScore : String
  LastPlayed : String
  deriving DecidableEq, Repr

structure GameEntry where
  ID : String
  Name : String
  Description : String
  Icon : String
  Command : String
  Path : String
  Category : String
  Difficulty : String
  Version : String
  Author : String
  Executable : Bool
  Config : GameConfig
  HighScore : String
  Stats : GameStats
  deriving DecidableEq, Repr

structure LauncherConfig where
  Title : String
  Version : String
  Author : String
  Theme : String
  deriving DecidableEq, Repr

structure GlobalStats where
  GamesPlayed : Int
  TotalTimeSeconds : Int
  AchievementsUnlocked : Int
  FavoriteGame : String
  LastPlayed : String
  deriving DecidableEq, Repr

structure Achievement where
  ID : String
  Name : String
  Description : String
  Unlocked : Bool
  UnlockDate : String
  deriving DecidableEq, Repr

structure StatsConfig where
  Global : GlobalStats
  Achievements : List Achievement
  deriving DecidableEq, Repr

structure SettingsConfig where
  Theme : String
  SoundEnabled : Bool
  AutoSave : Bool
  StatisticsTracking : Bool
  Notifications : Bool
  BackupSaves : Bool
  ControllerSupport : Bool
  TerminalSize : String
  deriving DecidableEq, Repr

structure Config where
  Launcher : LauncherConfig
  Games : List GameEntry
  TUIApps : List GameEntry
  Stats : StatsConfig
  Settings : SettingsConfig
  deriving DecidableEq, Repr

/-- Go: `type Launcher struct`. -/
structure Launcher where
  games : List GameEntry
  tuiApps : List GameEntry
  selectedGame : Int
  selectedTUIApp : Int
  selectedMenu : Int
  menuState : MenuState
  width : Int
  height : Int
  stats : GlobalStats
  deriving DecidableEq, Repr

/-- Run-time panics the modelled code can raise. -/
inductive Panic where
  | indexOutOfRange (index : Int) (len : Nat)
  | negativeRepeatCount
  deriving DecidableEq, Repr

/-- The `tea.Cmd` values the launcher returns.  `ExecProcess` carries the
argument vector of the `exec.Cmd` and the entry captured by the callback. -/
inductive Cmd where
  | Quit
  | ExecProcess (argv : List String) (game : GameEntry)
  deriving DecidableEq, Repr

/-- The `tea.Msg` values `Update` can receive: a resize, a key press (by its
`String()` form), or any other message, such as the outcome string produced by
the `ExecProcess` callback. -/
inductive Msg where
  | WindowSizeMsg (Width Height : Int)
  | KeyMsg (key : String)
  | Other (text : String)
  deriving DecidableEq, Repr

/-- The environment a call can observe: the result of `os.UserHomeDir()`
(`none` when it returns an error). -/
structure Env where
  homeDir : Option String
  deriving DecidableEq, Repr

/-- What a handler gives back: the model and an optional command, or a panic. -/
abbrev Result := Except Panic (Launcher × Option Cmd)

/-- Go slice indexing `xs[i]` with an `int` index. -/
def index (xs : List GameEntry) (i : Int) : Except Panic GameEntry :=
  if 0 ≤ i then
    match xs.get? i.toNat with
    | some g => .ok g
    | none => .error (.indexOutOfRange i xs.length)
  else .error (.indexOutOfRange i xs.length)

/-! ## `path/filepath.Join` (Unix), on which `launchGame` relies -/

/-- Split a path at every `/`. -/
def splitSep : List Char → List (List Char)
  | [] => [[]]
  | c :: cs =>
    if c = '/' then [] :: splitSep cs
    else match splitSep cs with
      | [] => [[c]]
      | w :: ws => (c :: w) :: ws

/-- Go: `strings.Join(elems, "/")`. -/
def joinSep : List (List Char) → List Char
  | [] => []
  | [a] => a
  | a :: rest => a ++ '/' :: joinSep rest

/-- One path element of `filepath.Clean`, acting on the stack of elements
written so far (last written first): empty and `.` elements are dropped; `..`
removes the last real element or, in an unrooted path with nothing to remove,
is kept; any other element is pushed. -/
def cleanStep (rooted : Bool) (out : List (List Char)) (c : List Char) : List (List Char) :=
  if c = [] ∨ c = ['.'] then out
  else if c = ['.', '.'] then
    match out with
    | l :: rest => if l ≠ ['.', '.'] then rest else c :: out
    | [] => if rooted then [] else [c]
  else c :: out

/-- The elements `filepath.Clean` keeps, last first. -/
def cleanStack (path : List Char) : List (List Char) :=
  (splitSep path).foldl (cleanStep (path.head? = some '/')) []

/-- Go: `filepath.Clean` on a Unix path. -/
def filepathClean (path : List Char) : List Char :=
  if path = [] then ['.']
  else
    let body := joinSep (cleanStack path).reverse
    if path.head? = some '/' then '/' :: body
    else if body = [] then ['.'] else body

/-- Go: `filepath.Join`: leading empty elements are skipped, the rest joined
with `/` and cleaned; all-empty input gives the empty string. -/
def filepathJoinChars : List (List Char) → List Char
  | [] => []
  | e :: es =>
    if e = [] then filepathJoinChars es
    else filepathClean (joinSep (e :: es))

/-- The shape of a cleaned element stack: no element is empty, `.` or contains
a separator, and a `..` element occurs only in an unrooted path with nothing
but `..` elements written before it. -/
def CleanStack (rooted : Bool) : List (List Char) → Prop
  | [] => True
  | e :: rest =>
    (e ≠ [] ∧ e ≠ ['.'] ∧ '/' ∉ e) ∧
      (e = ['.', '.'] → rooted = false ∧ ∀ x ∈ rest, x = ['.', '.']) ∧ CleanStack rooted rest

/-- An ordinary path element: not empty, not `.`, not `..`, no separator. -/
def ProperElem (e : List Char) : Prop :=
  e ≠ [] ∧ e ≠ ['.'] ∧ e ≠ ['.', '.'] ∧ '/' ∉ e

instance (e : List Char) : Decidable (ProperElem e) := by
  unfold ProperElem; infer_instance

/-- Go: `filepath.Join` on strings. -/
def filepathJoin (elem : List String) : String :=
  String.mk (filepathJoinChars (elem.map String.data))

/-! ## Menu state machine -/

/-- Go: `tuiHubDir` in `launchGame`, the base directory entries are resolved
against. -/
def tuiHubDir (homeDir : String) : String :=
  filepathJoin [homeDir, "projects", "active", "daily_use", "tui-hub"]

/-- Go: `launchGame`'s command construction, after the home directory is known. -/
def shellInvocation (homeDir : String) (game : GameEntry) : String :=
  if game.Path ≠ "" ∧ game.Path ≠ "./" then
    let fullPath := filepathJoin [tuiHubDir homeDir, game.Path]
    "cd " ++ fullPath ++ " && " ++ game.Command
  else game.Command

/-- Go: `(*Launcher).launchGame`.  The child inherits the parent's environment
(`cmd.Env = os.Environ()`), which is not part of the model. -/
def launchGame (env : Env) (m : Launcher) (game : GameEntry) : Launcher × Option Cmd :=
  match env.homeDir with
  | none => (m, some Cmd.Quit)
  | some homeDir => (m, some (Cmd.ExecProcess ["sh", "-c", shellInvocation homeDir game] game))

/-- The callback handed to `tea.ExecProcess` in `launchGame`; `err` is the
error's text, `none` for a nil error. -/
def execCallback (game : GameEntry) (err : Option String) : Msg :=
  match err with
  | some e => Msg.Other ("Error launching " ++ game.Name ++ ": " ++ e)
  | none => Msg.Other ("Returned from " ++ game.Name)

/-- The message function a command runs when the child process ends, if any. -/
def Cmd.callback : Cmd → Option (Option String → Msg)
  | .Quit => none
  | .ExecProcess _ game => some (execCallback game)

/-- Go: `(*Launcher).handleMainMenuKeys`. -/
def handleMainMenuKeys (env : Env) (m : Launcher) (key : String) : Result :=
  if key = "q" ∨ key = "ctrl+c" then .ok (m, some Cmd.Quit)
  else if key = "up" ∨ key = "k" then
    .ok (if m.selectedGame > 0 then { m with selectedGame := m.selectedGame - 1 } else m, none)
  else if key = "down" ∨ key = "j" then
    .ok (if m.selectedGame < (m.games.length : Int) - 1
      then { m with selectedGame := m.selectedGame + 1 } else m, none)
  else if key = "left" then .ok ({ m with menuState := TUIAppsMenu }, none)
  else if key = "right" then .ok ({ m with menuState := TUIAppsMenu }, none)
  else if key = "enter" ∨ key = " " then
    match index m.games m.selectedGame with
    | .ok game => .ok (launchGame env m game)
    | .error p => .error p
  else if key = "t" then .ok ({ m with menuState := TUIAppsMenu }, none)
  else if key = "s" then .ok ({ m with menuState := StatsMenu }, none)
  else if key = "o" then .ok ({ m with menuState := OptionsMenu }, none)
  else if key = "c" then .ok ({ m with menuState := CreditsMenu }, none)
  else .ok (m, none)

/-- Go: `(*Launcher).handleTUIAppsMenuKeys`. -/
def handleTUIAppsMenuKeys (env : Env) (m : Launcher) (key : String) : Result :=
  if key = "q" ∨ key = "ctrl+c" then .ok (m, some Cmd.Quit)
  else if key = "up" ∨ key = "k" then
    .ok (if m.selectedTUIApp > 0 then { m with selectedTUIApp := m.selectedTUIApp - 1 } else m, none)
  else if key = "down" ∨ key = "j" then
    .ok (if m.selectedTUIApp < (m.tuiApps.length : Int) - 1
      then { m with selectedTUIApp := m.selectedTUIApp + 1 } else m, none)
  else if key = "left" then .ok ({ m with menuState := MainMenu }, none)
  else if key = "right" then .ok ({ m with menuState := MainMenu }, none)
  else if key = "enter" ∨ key = " " then
    match index m.tuiApps m.selectedTUIApp with
    | .ok game => .ok (launchGame env m game)
    | .error p => .error p
  else .ok (m, none)

/-- Go: `(*Launcher).handleStatsMenuKeys`. -/
def handleStatsMenuKeys (m : Launcher) (key : String) : Result :=
  if key = "q" ∨ key = "esc" ∨ key = "backspace" then .ok ({ m with menuState := MainMenu }, none)
  else .ok (m, none)

/-- Go: `(*Launcher).handleOptionsMenuKeys`. -/
def handleOptionsMenuKeys (m : Launcher) (key : String) : Result :=
  if key = "q" ∨ key = "esc" ∨ key = "backspace" then .ok ({ m with menuState := MainMenu }, none)
  else .ok (m, none)

/-- Go: `(*Launcher).handleCreditsMenuKeys`. -/
def handleCreditsMenuKeys (m : Launcher) (key : String) : Result :=
  if key = "q" ∨ key = "esc" ∨ key = "backspace" then .ok ({ m with menuState := MainMenu }, none)
  else .ok (m, none)

/-- Go: `(*Launcher).handleKeyPress`. -/
def handleKeyPress (env : Env) (m : Launcher) (key : String) : Result :=
  if m.menuState = MainMenu then handleMainMenuKeys env m key
  else if m.menuState = TUIAppsMenu then handleTUIAppsMenuKeys env m key
  else if m.menuState = StatsMenu then handleStatsMenuKeys m key
  else if m.menuState = OptionsMenu then handleOptionsMenuKeys m key
  else if m.menuState = CreditsMenu then handleCreditsMenuKeys m key
  else .ok (m, none)

/-- Go: `(*Launcher).Update`. -/
def Update (env : Env) (m : Launcher) (msg : Msg) : Result :=
  match msg with
  | .WindowSizeMsg w h => .ok ({ m with width := w, height := h }, none)
  | .KeyMsg key => handleKeyPress env m key
  | .Other _ => .ok (m, none)

/-- Go: `handleKeyPress` applied to a sequence of key events, stopping at the
first panic. -/
def runKeys (env : Env) (m : Launcher) : List String → Except Panic Launcher
  | [] => .ok m
  | key :: keys =>
    match handleKeyPress env m key with
    | .ok (m', _) => runKeys env m' keys
    | .error p => .error p

/-! ## Config loader -/

/-- Go: `getDefaultConfig`. -/
def getDefaultConfig : Config :=
  { Launcher :=
      { Title := "Terminal Gaming Suite", Version := "1.0.0", Author := "Your Name",
        Theme := "retro" }
    Games := []
    TUIApps := []
    Stats :=
      { Global :=
          { GamesPlayed := 0, TotalTimeSeconds := 0, AchievementsUnlocked := 0,
            FavoriteGame := "", LastPlayed := "" }
        Achievements := [] }
    Settings :=
      { Theme := "retro", SoundEnabled := true, AutoSave := true, StatisticsTracking := true,
        Notifications := true, BackupSaves := true, ControllerSupport := false,
        TerminalSize := "auto" } }

/-- The file at `~/.config/tui-hub/config.json`: missing, there but refused by
`os.Open`, or there and readable. -/
inductive FileState where
  | absent
  | unreadable (content : String)
  | present (content : String)
  deriving DecidableEq, Repr

/-- What the file system answers when `loadConfig` writes: whether `os.Create`
succeeds, and which bytes reach the file when the encoder emits a text (the
text itself unless the write fails part-way). -/
structure FsEnv where
  createOk : Bool
  written : String → String

/-- Go: `loadConfig`, returning the configuration and the file afterwards.
`decode` is `json.NewDecoder(file).Decode` (`none` on a parse error) and
`encode` the indenting encoder. -/
def loadConfig (decode : String → Option Config) (encode : Config → String)
    (env : Env) (fs : FsEnv) (file : FileState) : Config × FileState :=
  match env.homeDir with
  | none => (getDefaultConfig, file)
  | some _ =>
    match file with
    | .present content =>
      match decode content with
      | none => (getDefaultConfig, file)
      | some config => (config, file)
    | _ =>
      let defaultConfig := getDefaultConfig
      if fs.createOk then (defaultConfig, .present (fs.written (encode defaultConfig)))
      else (defaultConfig, file)

/-- Go: `NewLauncher`, from the configuration `loadConfig` returned. -/
def NewLauncher (config : Config) : Launcher :=
  { games := config.Games
    tuiApps := config.TUIApps
    selectedGame := 0
    selectedTUIApp := 0
    selectedMenu := 0
    menuState := TUIAppsMenu
    width := 0
    height := 0
    stats := config.Stats.Global }

/-- Sessions the program can be in: `NewLauncher` on whatever `loadConfig`
produced, followed by any number of `Update` calls that return. -/
inductive Reachable (env : Env) : Launcher → Prop where
  | init (decode : String → Option Config) (encode : Config → String) (env0 : Env)
      (fs : FsEnv) (file : FileState) :
      Reachable env (NewLauncher (loadConfig decode encode env0 fs file).1)
  | step {m m' : Launcher} {cmd : Option Cmd} (msg : Msg) :
      Reachable env m → Update env m msg = .ok (m', cmd) → Reachable env m'

/-! ## Renderer -/

/-- The `Render` methods of the six lipgloss styles. -/
structure Styles where
  headerStyle : String → String
  selectedStyle : String → String
  normalStyle : String → String
  commandStyle : String → String
  keyStyle : String → String
  descStyle : String → String

/-- Go: `strings.Repeat`, which panics on a negative count. -/
def stringsRepeat (s : String) (count : Int) : Except Panic String :=
  if count < 0 then .error .negativeRepeatCount
  else .ok (String.join (List.replicate count.toNat s))

/-- Go `len(s)` of a string: its length in bytes. -/
def len (s : String) : Int := (s.utf8ByteSize : Int)

/-- One iteration of the list loop shared by `renderMainMenu` and
`renderTUIAppsMenu`. -/
def renderRow (st : Styles) (selected : Bool) (game : GameEntry) : Except Panic String := do
  let nameCol := game.Icon ++ " " ++ game.Name
  let pad ← stringsRepeat " " (30 - len game.Name - 3)
  if selected then
    pure (st.selectedStyle nameCol ++ pad ++ st.selectedStyle game.Description ++ "\n")
  else
    pure (st.normalStyle nameCol ++ pad ++ st.descStyle game.Description ++ "\n")

/-- The `for i, game := range ...` loop, from index `i` on. -/
def renderRows (st : Styles) (selected : Int) : Int → List GameEntry → Except Panic String
  | _, [] => pure ""
  | i, game :: rest => do
    let row ← renderRow st (i = selected) game
    let more ← renderRows st selected (i + 1) rest
    pure (row ++ more)

/-- The key legend both list screens end with. -/
def renderCommands (st : Styles) : String :=
  "\n" ++ st.keyStyle "enter" ++ st.commandStyle ": launch \xe2€\xa2 "
    ++ st.keyStyle "\xe2†‘\xe2†“"
    ++ st.commandStyle ": navigate \xe2€\xa2 "
    ++ st.keyStyle "\xe2†\xe2†’"
    ++ st.commandStyle ": swap menu \xe2€\xa2 "
    ++ st.keyStyle "q" ++ st.commandStyle ": quit"

/-- The table header both list screens start with, below the banner. -/
def renderTableHeader (st : Styles) (width : Int) : Except Panic String := do
  let blanks ← stringsRepeat " " 30
  let rule ← stringsRepeat "\xe2”€" width
  pure (st.normalStyle "Name" ++ blanks ++ st.normalStyle "Description" ++ "\n" ++ rule ++ "\n")

/-- Go: `(*Launcher).renderMainMenu`. -/
def renderMainMenu (st : Styles) (m : Launcher) : Except Panic String := do
  let head ← renderTableHeader st m.width
  let rows ← renderRows st m.selectedGame 0 m.games
  pure (st.headerStyle "\xf0ŸŽ\xae Terminal Gaming Suite" ++ "\n\n" ++ head ++ rows
    ++ renderCommands st)

/-- Go: `(*Launcher).renderTUIAppsMenu`. -/
def renderTUIAppsMenu (st : Styles) (m : Launcher) : Except Panic String := do
  let head ← renderTableHeader st m.width
  let rows ← renderRows st m.selectedTUIApp 0 m.tuiApps
  pure (st.headerStyle "\xf0Ÿ–\xa5\xef\xb8  TUI Applications" ++ "\n\n" ++ head ++ rows
    ++ renderCommands st)

/-! ## The spec's dispatch table -/

/-- The keys the spec lists for each screen (section 4.2). -/
def dispatchKeys (state : MenuState) : List String :=
  if state = MainMenu then
    ["up", "k", "down", "j", "left", "right", "enter", " ", "t", "s", "o", "c", "q", "ctrl+c"]
  else if state = TUIAppsMenu then
    ["up", "k", "down", "j", "left", "right", "enter", " ", "q", "ctrl+c"]
  else if state = StatsMenu ∨ state = OptionsMenu ∨ state = CreditsMenu then
    ["q", "esc", "backspace"]
  else []

/-- An up or down key, with the vi-style aliases. -/
def isUpDown (key : String) : Prop := key = "up" ∨ key = "k" ∨ key = "down" ∨ key = "j"

instance (key : String) : Decidable (isUpDown key) := by
  unfold isUpDown; infer_instance

/-! ## Sample data -/

/-- An entry with the given name, command and path, all else blank. -/
def sampleEntry (name command path : String) : GameEntry :=
  { ID := name, Name := name, Description := "", Icon := "*", Command := command, Path := path,
    Category := "", Difficulty := "", Version := "", Author := "", Executable := true,
    Config := { Data := [] }, HighScore := "",
    Stats := { TimesPlayed := 0, TotalTime := "", HighScore := "", LastPlayed := "" } }

/-- The session `NewLauncher` builds from the default configuration. -/
def initialSession : Launcher := NewLauncher getDefaultConfig

/-- A session with two games and two apps, on the given screen. -/
def sampleSession (state : MenuState) : Launcher :=
  { initialSession with
    games := [sampleEntry "snake" "./snake" "games/snake", sampleEntry "tetris" "tetris" ""]
    tuiApps := [sampleEntry "notes" "notes" "./", sampleEntry "hi" "echo hi" "sub/dir"]
    menuState := state }

/-- A stand-in decoder: the empty object decodes to the zero-valued
configuration, every other text is a parse error. -/
def sampleDecode (content : String) : Option Config :=
  if content = "\x7b\x7d" then
    some
      { Launcher := { Title := "", Version := "", Author := "", Theme := "" }
        Games := []
        TUIApps := []
        Stats :=
          { Global :=
              { GamesPlayed := 0, TotalTimeSeconds := 0, AchievementsUnlocked := 0,
                FavoriteGame := "", LastPlayed := "" }
            Achievements := [] }
        Settings :=
          { Theme := "", SoundEnabled := false, AutoSave := false, StatisticsTracking := false,
            Notifications := false, BackupSaves := false, ControllerSupport := false,
            TerminalSize := "" } }
  else none

/-- A file system on which creating and writing the file succeed. -/
def sampleFs : FsEnv := { createOk := true, written := id }

/-- A name of 28 bytes, one more than the list renderers leave room for. -/
def longName : String := "aaaaaaaaaaaaaaaaaaaaaaaaaaaa"

/-- The session `NewLauncher` builds from a configuration that lists one game
and one app, both under the 28-byte name. -/
def longNameSession : Launcher :=
  NewLauncher
    { getDefaultConfig with
      Games := [sampleEntry longName "true" ""]
      TUIApps := [sampleEntry longName "true" ""] }

/-- An environment whose home directory resolves. -/
def sampleEnv : Env := { homeDir := some "/home/user" }

/-- An environment in which `os.UserHomeDir` fails. -/
def noHomeEnv : Env := { homeDir := none }

end TuiHub

namespace TuiHub

/-! ## Dispatch lemmas -/

theorem handleKeyPress_main {m : Launcher} (env : Env) (key : String)
    (h : m.menuState = MainMenu) : handleKeyPress env m key = handleMainMenuKeys env m key := by
  simp [handleKeyPress, h]

theorem handleKeyPress_tui {m : Launcher} (env : Env) (key : String)
    (h : m.menuState = TUIAppsMenu) :
    handleKeyPress env m key = handleTUIAppsMenuKeys env m key := by
  simp [handleKeyPress, h, TUIAppsMenu, MainMenu]

theorem main_up (env : Env) (m : Launcher) {key : String} (hk : key = "up" ∨ key = "k") :
    handleMainMenuKeys env m key =
      .ok (if m.selectedGame > 0 then { m with selectedGame := m.selectedGame - 1 } else m, none) := by
  rcases hk with rfl | rfl <;> simp [handleMainMenuKeys]

theorem main_down (env : Env) (m : Launcher) {key : String} (hk : key = "down" ∨ key = "j") :
    handleMainMenuKeys env m key =
      .ok (if m.selectedGame < (m.games.length : Int) - 1
        then { m with selectedGame := m.selectedGame + 1 } else m, none) := by
  rcases hk with rfl | rfl <;> simp [handleMainMenuKeys]

theorem tui_up (env : Env) (m : Launcher) {key : String} (hk : key = "up" ∨ key = "k") :
    handleTUIAppsMenuKeys env m key =
      .ok (if m.selectedTUIApp > 0 then { m with selectedTUIApp := m.selectedTUIApp - 1 } else m,
        none) := by
  rcases hk with rfl | rfl <;> simp [handleTUIAppsMenuKeys]

theorem tui_down (env : Env) (m : Launcher) {key : String} (hk : key = "down" ∨ key = "j") :
    handleTUIAppsMenuKeys env m key =
      .ok (if m.selectedTUIApp < (m.tuiApps.length : Int) - 1
        then { m with selectedTUIApp := m.selectedTUIApp + 1 } else m, none) := by
  rcases hk with rfl | rfl <;> simp [handleTUIAppsMenuKeys]

theorem main_updown_run (env : Env) (keys : List String) (hkeys : ∀ k ∈ keys, isUpDown k) :
    ∀ m : Launcher, m.menuState = MainMenu → 0 ≤ m.selectedGame →
      m.selectedGame ≤ (m.games.length : Int) - 1 →
      ∃ m', runKeys env m keys = .ok m' ∧ m'.games = m.games ∧ m'.menuState = MainMenu ∧
        0 ≤ m'.selectedGame ∧ m'.selectedGame ≤ (m.games.length : Int) - 1 := by
  induction keys with
  | nil => intro m hs h0 h1; exact ⟨m, rfl, rfl, hs, h0, h1⟩
  | cons k ks ih =>
    intro m hs h0 h1
    have hk : isUpDown k := hkeys k (List.mem_cons_self _ _)
    have hks : ∀ k ∈ ks, isUpDown k := fun x hx => hkeys x (List.mem_cons_of_mem _ hx)
    have step : ∃ m1, handleKeyPress env m k = .ok (m1, none) ∧ m1.games = m.games ∧
        m1.menuState = MainMenu ∧ 0 ≤ m1.selectedGame ∧
        m1.selectedGame ≤ (m.games.length : Int) - 1 := by
      rw [handleKeyPress_main env k hs]
      rcases hk with h | h | h | h
      · rw [main_up env m (Or.inl h)]
        refine ⟨_, rfl, ?_⟩
        split_ifs <;> simp_all; omega
      · rw [main_up env m (Or.inr h)]
        refine ⟨_, rfl, ?_⟩
        split_ifs <;> simp_all; omega
      · rw [main_down env m (Or.inl h)]
        refine ⟨_, rfl, ?_⟩
        split_ifs <;> simp_all; omega
      · rw [main_down env m (Or.inr h)]
        refine ⟨_, rfl, ?_⟩
        split_ifs <;> simp_all; omega
    obtain ⟨m1, e1, g1, s1, a1, b1⟩ := step
    obtain ⟨m2, e2, g2, s2, a2, b2⟩ := ih hks m1 s1 a1 (by rw [g1]; exact b1)
    refine ⟨m2, ?_, by rw [g2, g1], s2, a2, by rw [g1] at b2; exact b2⟩
    simp [runKeys, e1, e2]

theorem tui_updown_run (env : Env) (keys : List String) (hkeys : ∀ k ∈ keys, isUpDown k) :
    ∀ m : Launcher, m.menuState = TUIAppsMenu → 0 ≤ m.selectedTUIApp →
      m.selectedTUIApp ≤ (m.tuiApps.length : Int) - 1 →
      ∃ m', runKeys env m keys = .ok m' ∧ m'.tuiApps = m.tuiApps ∧ m'.menuState = TUIAppsMenu ∧
        0 ≤ m'.selectedTUIApp ∧ m'.selectedTUIApp ≤ (m.tuiApps.length : Int) - 1 := by
  induction keys with
  | nil => intro m hs h0 h1; exact ⟨m, rfl, rfl, hs, h0, h1⟩
  | cons k ks ih =>
    intro m hs h0 h1
    have hk : isUpDown k := hkeys k (List.mem_cons_self _ _)
    have hks : ∀ k ∈ ks, isUpDown k := fun x hx => hkeys x (List.mem_cons_of_mem _ hx)
    have step : ∃ m1, handleKeyPress env m k = .ok (m1, none) ∧ m1.tuiApps = m.tuiApps ∧
        m1.menuState = TUIAppsMenu ∧ 0 ≤ m1.selectedTUIApp ∧
        m1.selectedTUIApp ≤ (m.tuiApps.length : Int) - 1 := by
      rw [handleKeyPress_tui env k hs]
      rcases hk with h | h | h | h
      · rw [tui_up env m (Or.inl h)]
        refine ⟨_, rfl, ?_⟩
        split_ifs <;> simp_all
        omega
      · rw [tui_up env m (Or.inr h)]
        refine ⟨_, rfl, ?_⟩
        split_ifs <;> simp_all
        omega
      · rw [tui_down env m (Or.inl h)]
        refine ⟨_, rfl, ?_⟩
        split_ifs <;> simp_all
        omega
      · rw [tui_down env m (Or.inr h)]
        refine ⟨_, rfl, ?_⟩
        split_ifs <;> simp_all
        omega
    obtain ⟨m1, e1, g1, s1, a1, b1⟩ := step
    obtain ⟨m2, e2, g2, s2, a2, b2⟩ := ih hks m1 s1 a1 (by rw [g1]; exact b1)
    refine ⟨m2, ?_, by rw [g2, g1], s2, a2, by rw [g1] at b2; exact b2⟩
    simp [runKeys, e1, e2]

/-! ## C1: selection stays clamped -/

/-- C1: on a non-empty list of length `N` with the selection index `i` in
`[0, N-1]`, an up key (`up`, `k`) sets the index to `max (i-1) 0` and a down key
(`down`, `j`) sets it to `min (i+1) (N-1)`, for `games` on MainMenu and for
`tuiApps` on TUIAppsMenu; up at index 0 and down at index `N-1` change nothing;
and every finite sequence of up/down keys started at index 0 runs to the end and
leaves the index in `[0, N-1]`. -/
theorem selection_index_clamped (env : Env) (m : Launcher) :
    (m.menuState = MainMenu → m.games ≠ [] → 0 ≤ m.selectedGame →
        m.selectedGame ≤ (m.games.length : Int) - 1 →
      (∀ key, key = "up" ∨ key = "k" → handleKeyPress env m key =
        .ok ({ m with selectedGame := max (m.selectedGame - 1) 0 }, none)) ∧
      (∀ key, key = "down" ∨ key = "j" → handleKeyPress env m key =
        .ok ({ m with selectedGame := min (m.selectedGame + 1) ((m.games.length : Int) - 1) },
          none)) ∧
      (m.selectedGame = 0 → ∀ key, key = "up" ∨ key = "k" →
        handleKeyPress env m key = .ok (m, none)) ∧
      (m.selectedGame = (m.games.length : Int) - 1 → ∀ key, key = "down" ∨ key = "j" →
        handleKeyPress env m key = .ok (m, none))) ∧
    (m.menuState = TUIAppsMenu → m.tuiApps ≠ [] → 0 ≤ m.selectedTUIApp →
        m.selectedTUIApp ≤ (m.tuiApps.length : Int) - 1 →
      (∀ key, key = "up" ∨ key = "k" → handleKeyPress env m key =
        .ok ({ m with selectedTUIApp := max (m.selectedTUIApp - 1) 0 }, none)) ∧
      (∀ key, key = "down" ∨ key = "j" → handleKeyPress env m key =
        .ok ({ m with
          selectedTUIApp := min (m.selectedTUIApp + 1) ((m.tuiApps.length : Int) - 1) },
          none)) ∧
      (m.selectedTUIApp = 0 → ∀ key, key = "up" ∨ key = "k" →
        handleKeyPress env m key = .ok (m, none)) ∧
      (m.selectedTUIApp = (m.tuiApps.length : Int) - 1 → ∀ key, key = "down" ∨ key = "j" →
        handleKeyPress env m key = .ok (m, none))) ∧
    (m.menuState = MainMenu → m.games ≠ [] → m.selectedGame = 0 →
      ∀ keys : List String, (∀ k ∈ keys, isUpDown k) →
        ∃ m', runKeys env m keys = .ok m' ∧ 0 ≤ m'.selectedGame ∧
          m'.selectedGame ≤ (m.games.length : Int) - 1) ∧
    (m.menuState = TUIAppsMenu → m.tuiApps ≠ [] → m.selectedTUIApp = 0 →
      ∀ keys : List String, (∀ k ∈ keys, isUpDown k) →
        ∃ m', runKeys env m keys = .ok m' ∧ 0 ≤ m'.selectedTUIApp ∧
          m'.selectedTUIApp ≤ (m.tuiApps.length : Int) - 1) := by
  refine ⟨?_, ?_, ?_, ?_⟩
  · intro hs _ h0 h1
    refine ⟨?_, ?_, ?_, ?_⟩
    · intro key hk
      rw [handleKeyPress_main env key hs, main_up env m hk]
      by_cases hpos : m.selectedGame > 0
      · rw [if_pos hpos, max_eq_left (by omega)]
      · rw [if_neg hpos, max_eq_right (by omega)]
        have : m.selectedGame = 0 := by omega
        rw [← this]
    · intro key hk
      rw [handleKeyPress_main env key hs, main_down env m hk]
      by_cases hlt : m.selectedGame < (m.games.length : Int) - 1
      · rw [if_pos hlt, min_eq_left (by omega)]
      · rw [if_neg hlt, min_eq_right (by omega)]
        have : (m.games.length : Int) - 1 = m.selectedGame := by omega
        rw [this]
    · intro hz key hk
      rw [handleKeyPress_main env key hs, main_up env m hk, if_neg (by omega)]
    · intro hz key hk
      rw [handleKeyPress_main env key hs, main_down env m hk, if_neg (by omega)]
  · intro hs _ h0 h1
    refine ⟨?_, ?_, ?_, ?_⟩
    · intro key hk
      rw [handleKeyPress_tui env key hs, tui_up env m hk]
      by_cases hpos : m.selectedTUIApp > 0
      · rw [if_pos hpos, max_eq_left (by omega)]
      · rw [if_neg hpos, max_eq_right (by omega)]
        have : m.selectedTUIApp = 0 := by omega
        rw [← this]
    · intro key hk
      rw [handleKeyPress_tui env key hs, tui_down env m hk]
      by_cases hlt : m.selectedTUIApp < (m.tuiApps.length : Int) - 1
      · rw [if_pos hlt, min_eq_left (by omega)]
      · rw [if_neg hlt, min_eq_right (by omega)]
        have : (m.tuiApps.length : Int) - 1 = m.selectedTUIApp := by omega
        rw [this]
    · intro hz key hk
      rw [handleKeyPress_tui env key hs, tui_up env m hk, if_neg (by omega)]
    · intro hz key hk
      rw [handleKeyPress_tui env key hs, tui_down env m hk, if_neg (by omega)]
  · intro hs hne hz keys hkeys
    have hlen : 0 < m.games.length := List.length_pos.mpr hne
    obtain ⟨m', e, _, _, a, b⟩ :=
      main_updown_run env keys hkeys m hs (by omega) (by omega)
    exact ⟨m', e, a, b⟩
  · intro hs hne hz keys hkeys
    have hlen : 0 < m.tuiApps.length := List.length_pos.mpr hne
    obtain ⟨m', e, _, _, a, b⟩ :=
      tui_updown_run env keys hkeys m hs (by omega) (by omega)
    exact ⟨m', e, a, b⟩

/-- C1 at the two-entry sample session: down from index 0 gives index 1 on
either list screen, and an up/down sequence stays in range. -/
theorem selection_index_clamped_witness :
    handleKeyPress sampleEnv (sampleSession MainMenu) "down" =
        .ok ({ sampleSession MainMenu with selectedGame := min (0 + 1) (2 - 1) }, none) ∧
      handleKeyPress sampleEnv (sampleSession TUIAppsMenu) "k" =
        .ok ({ sampleSession TUIAppsMenu with selectedTUIApp := max (0 - 1) 0 }, none) ∧
      (∃ m', runKeys sampleEnv (sampleSession MainMenu) ["down", "j", "j", "up"] = .ok m' ∧
        0 ≤ m'.selectedGame ∧ m'.selectedGame ≤ 2 - 1) ∧
      (∃ m', runKeys sampleEnv (sampleSession TUIAppsMenu) ["k", "down", "j"] = .ok m' ∧
        0 ≤ m'.selectedTUIApp ∧ m'.selectedTUIApp ≤ 2 - 1) :=
  ⟨((selection_index_clamped sampleEnv (sampleSession MainMenu)).1 rfl (by decide) (by decide)
      (by decide)).2.1 "down" (Or.inl rfl),
    ((selection_index_clamped sampleEnv (sampleSession TUIAppsMenu)).2.1 rfl (by decide)
      (by decide) (by decide)).1 "k" (Or.inr rfl),
    (selection_index_clamped sampleEnv (sampleSession MainMenu)).2.2.1 rfl (by decide) rfl
      ["down", "j", "j", "up"] (by decide),
    (selection_index_clamped sampleEnv (sampleSession TUIAppsMenu)).2.2.2 rfl (by decide) rfl
      ["k", "down", "j"] (by decide)⟩

/-! ## C2: launch on an empty list -/

/-- C2: what a launch key does on an empty list.  In the session built from
the default configuration, whose lists are empty, `enter` or space indexes the
empty list and panics with index 0 out of range for length 0, on TUIAppsMenu
and, after switching, on MainMenu; no session is returned. -/
theorem launch_on_empty_list_panics (env : Env) :
    handleKeyPress env initialSession "enter" = .error (.indexOutOfRange 0 0) ∧
      handleKeyPress env initialSession " " = .error (.indexOutOfRange 0 0) ∧
      handleKeyPress env { initialSession with menuState := MainMenu } "enter" =
        .error (.indexOutOfRange 0 0) ∧
      handleKeyPress env { initialSession with menuState := MainMenu } " " =
        .error (.indexOutOfRange 0 0) :=
  ⟨rfl, rfl, rfl, rfl⟩

/-! ## C3: the dispatch table -/

theorem index_ok_iff (xs : List GameEntry) (i : Int) :
    (∃ g, index xs i = .ok g) ↔ 0 ≤ i ∧ i < (xs.length : Int) := by
  unfold index
  by_cases h0 : 0 ≤ i
  · rw [if_pos h0]
    by_cases hlt : i.toNat < xs.length
    · have hget : xs.get? i.toNat = some (xs.get ⟨i.toNat, hlt⟩) := List.get?_eq_get hlt
      rw [hget]
      constructor
      · intro _; exact ⟨h0, by omega⟩
      · intro _; exact ⟨_, rfl⟩
    · have hget : xs.get? i.toNat = none := List.get?_eq_none.mpr (by omega)
      rw [hget]
      constructor
      · rintro ⟨g, hg⟩; cases hg
      · rintro ⟨_, h⟩; omega
  · rw [if_neg h0]
    constructor
    · rintro ⟨g, hg⟩; cases hg
    · rintro ⟨h, _⟩; exact absurd h h0

theorem index_ok_or_error (xs : List GameEntry) (i : Int) :
    (∃ g, index xs i = .ok g) ∨ index xs i = .error (.indexOutOfRange i xs.length) := by
  unfold index
  split_ifs
  · cases xs.get? i.toNat with
    | none => exact Or.inr rfl
    | some g => exact Or.inl ⟨g, rfl⟩
  · exact Or.inr rfl

theorem launchGame_fst (env : Env) (m : Launcher) (game : GameEntry) :
    (launchGame env m game).1 = m := by
  unfold launchGame
  cases env.homeDir <;> rfl

/-- C3: the screen after a key is the one the dispatch table names.  On
MainMenu `t`, `left`, `right` give TUIAppsMenu, `s` StatsMenu, `o` OptionsMenu,
`c` CreditsMenu; on TUIAppsMenu `left` and `right` give MainMenu; on StatsMenu,
OptionsMenu and CreditsMenu `q`, `esc`, `backspace` give MainMenu; nothing else
in the session changes and no command is returned.  Any key on TUIAppsMenu
either returns a session on TUIAppsMenu or MainMenu, or is a launch key whose
index is out of range and panics. -/
theorem menu_dispatch_table (env : Env) (m : Launcher) :
    (m.menuState = MainMenu →
      (∀ key, key = "t" ∨ key = "left" ∨ key = "right" →
        handleKeyPress env m key = .ok ({ m with menuState := TUIAppsMenu }, none)) ∧
      handleKeyPress env m "s" = .ok ({ m with menuState := StatsMenu }, none) ∧
      handleKeyPress env m "o" = .ok ({ m with menuState := OptionsMenu }, none) ∧
      handleKeyPress env m "c" = .ok ({ m with menuState := CreditsMenu }, none)) ∧
    (m.menuState = TUIAppsMenu → ∀ key, key = "left" ∨ key = "right" →
      handleKeyPress env m key = .ok ({ m with menuState := MainMenu }, none)) ∧
    (m.menuState = StatsMenu ∨ m.menuState = OptionsMenu ∨ m.menuState = CreditsMenu →
      ∀ key, key = "q" ∨ key = "esc" ∨ key = "backspace" →
        handleKeyPress env m key = .ok ({ m with menuState := MainMenu }, none)) ∧
    (m.menuState = TUIAppsMenu → ∀ key,
      (∃ m' cmd, handleKeyPress env m key = .ok (m', cmd) ∧
        (m'.menuState = TUIAppsMenu ∨ m'.menuState = MainMenu)) ∨
      ((key = "enter" ∨ key = " ") ∧
        ¬ (0 ≤ m.selectedTUIApp ∧ m.selectedTUIApp < (m.tuiApps.length : Int)) ∧
        handleKeyPress env m key =
          .error (.indexOutOfRange m.selectedTUIApp m.tuiApps.length))) := by
  refine ⟨?_, ?_, ?_, ?_⟩
  · intro hs
    refine ⟨?_, ?_, ?_, ?_⟩
    · rintro key (rfl | rfl | rfl) <;>
        simp [handleKeyPress_main env _ hs, handleMainMenuKeys]
    · simp [handleKeyPress_main env _ hs, handleMainMenuKeys]
    · simp [handleKeyPress_main env _ hs, handleMainMenuKeys]
    · simp [handleKeyPress_main env _ hs, handleMainMenuKeys]
  · intro hs
    rintro key (rfl | rfl) <;> simp [handleKeyPress_tui env _ hs, handleTUIAppsMenuKeys]
  · rintro (hs | hs | hs) key hk
    · simp [handleKeyPress, hs, StatsMenu, MainMenu, TUIAppsMenu, handleStatsMenuKeys, hk]
    · simp [handleKeyPress, hs, OptionsMenu, StatsMenu, MainMenu, TUIAppsMenu,
        handleOptionsMenuKeys, hk]
    · simp [handleKeyPress, hs, CreditsMenu, OptionsMenu, StatsMenu, MainMenu, TUIAppsMenu,
        handleCreditsMenuKeys, hk]
  · intro hs key
    rw [handleKeyPress_tui env key hs]
    unfold handleTUIAppsMenuKeys
    by_cases h1 : key = "q" ∨ key = "ctrl+c"
    · rw [if_pos h1]; exact Or.inl ⟨_, _, rfl, Or.inl hs⟩
    rw [if_neg h1]
    by_cases h2 : key = "up" ∨ key = "k"
    · rw [if_pos h2]
      exact Or.inl ⟨_, _, rfl, by split_ifs <;> exact Or.inl hs⟩
    rw [if_neg h2]
    by_cases h3 : key = "down" ∨ key = "j"
    · rw [if_pos h3]
      exact Or.inl ⟨_, _, rfl, by split_ifs <;> exact Or.inl hs⟩
    rw [if_neg h3]
    by_cases h4 : key = "left"
    · rw [if_pos h4]; exact Or.inl ⟨_, _, rfl, Or.inr rfl⟩
    rw [if_neg h4]
    by_cases h5 : key = "right"
    · rw [if_pos h5]; exact Or.inl ⟨_, _, rfl, Or.inr rfl⟩
    rw [if_neg h5]
    by_cases h6 : key = "enter" ∨ key = " "
    · rw [if_pos h6]
      rcases index_ok_or_error m.tuiApps m.selectedTUIApp with ⟨g, hg⟩ | herr
      · left
        rw [hg]
        exact ⟨(launchGame env m g).1, (launchGame env m g).2, rfl,
          by rw [launchGame_fst]; exact Or.inl hs⟩
      · right
        refine ⟨h6, ?_, by rw [herr]⟩
        intro hin
        obtain ⟨g, hg⟩ := (index_ok_iff _ _).mpr hin
        rw [hg] at herr
        cases herr
    rw [if_neg h6]
    exact Or.inl ⟨_, _, rfl, Or.inl hs⟩

/-- C3 at the sample session on each screen. -/
theorem menu_dispatch_table_witness :
    handleKeyPress sampleEnv (sampleSession MainMenu) "t" =
        .ok ({ sampleSession MainMenu with menuState := TUIAppsMenu }, none) ∧
      handleKeyPress sampleEnv (sampleSession TUIAppsMenu) "left" =
        .ok ({ sampleSession TUIAppsMenu with menuState := MainMenu }, none) ∧
      handleKeyPress sampleEnv (sampleSession CreditsMenu) "q" =
        .ok ({ sampleSession CreditsMenu with menuState := MainMenu }, none) ∧
      ((∃ m' cmd, handleKeyPress sampleEnv (sampleSession TUIAppsMenu) "s" = .ok (m', cmd) ∧
          (m'.menuState = TUIAppsMenu ∨ m'.menuState = MainMenu)) ∨
        (("s" = "enter" ∨ "s" = " ") ∧
          ¬ (0 ≤ (sampleSession TUIAppsMenu).selectedTUIApp ∧
            (sampleSession TUIAppsMenu).selectedTUIApp <
              ((sampleSession TUIAppsMenu).tuiApps.length : Int)) ∧
          handleKeyPress sampleEnv (sampleSession TUIAppsMenu) "s" =
            .error (.indexOutOfRange (sampleSession TUIAppsMenu).selectedTUIApp
              (sampleSession TUIAppsMenu).tuiApps.length))) :=
  ⟨((menu_dispatch_table sampleEnv (sampleSession MainMenu)).1 rfl).1 "t" (Or.inl rfl),
    (menu_dispatch_table sampleEnv (sampleSession TUIAppsMenu)).2.1 rfl "left" (Or.inl rfl),
    (menu_dispatch_table sampleEnv (sampleSession CreditsMenu)).2.2.1 (Or.inr (Or.inr rfl)) "q"
      (Or.inl rfl),
    (menu_dispatch_table sampleEnv (sampleSession TUIAppsMenu)).2.2.2 rfl "s"⟩

/-! ## C4: up/down on an empty list -/

theorem main_moves (env : Env) (m m' : Launcher) (key : String) (cmd : Option Cmd)
    (h : handleMainMenuKeys env m key = .ok (m', cmd)) :
    m'.games = m.games ∧ m'.tuiApps = m.tuiApps ∧
      (m'.selectedGame = m.selectedGame ∨
        (m.selectedGame > 0 ∧ m'.selectedGame = m.selectedGame - 1) ∨
        (m.selectedGame < (m.games.length : Int) - 1 ∧ m'.selectedGame = m.selectedGame + 1)) ∧
      (m'.selectedTUIApp = m.selectedTUIApp ∨
        (m.selectedTUIApp > 0 ∧ m'.selectedTUIApp = m.selectedTUIApp - 1) ∨
        (m.selectedTUIApp < (m.tuiApps.length : Int) - 1 ∧
          m'.selectedTUIApp = m.selectedTUIApp + 1)) := by
  unfold handleMainMenuKeys at h
  by_cases h1 : key = "q" ∨ key = "ctrl+c"
  · rw [if_pos h1] at h
    obtain ⟨rfl, -⟩ := Prod.mk.inj (Except.ok.inj h)
    exact ⟨rfl, rfl, Or.inl rfl, Or.inl rfl⟩
  rw [if_neg h1] at h
  by_cases h2 : key = "up" ∨ key = "k"
  · rw [if_pos h2] at h
    by_cases hc : m.selectedGame > 0
    · rw [if_pos hc] at h
      obtain ⟨rfl, -⟩ := Prod.mk.inj (Except.ok.inj h)
      exact ⟨rfl, rfl, Or.inr (Or.inl ⟨hc, rfl⟩), Or.inl rfl⟩
    · rw [if_neg hc] at h
      obtain ⟨rfl, -⟩ := Prod.mk.inj (Except.ok.inj h)
      exact ⟨rfl, rfl, Or.inl rfl, Or.inl rfl⟩
  rw [if_neg h2] at h
  by_cases h3 : key = "down" ∨ key = "j"
  · rw [if_pos h3] at h
    by_cases hc : m.selectedGame < (m.games.length : Int) - 1
    · rw [if_pos hc] at h
      obtain ⟨rfl, -⟩ := Prod.mk.inj (Except.ok.inj h)
      exact ⟨rfl, rfl, Or.inr (Or.inr ⟨hc, rfl⟩), Or.inl rfl⟩
    · rw [if_neg hc] at h
      obtain ⟨rfl, -⟩ := Prod.mk.inj (Except.ok.inj h)
      exact ⟨rfl, rfl, Or.inl rfl, Or.inl rfl⟩
  rw [if_neg h3] at h
  by_cases h4 : key = "left"
  · rw [if_pos h4] at h
    obtain ⟨rfl, -⟩ := Prod.mk.inj (Except.ok.inj h)
    exact ⟨rfl, rfl, Or.inl rfl, Or.inl rfl⟩
  rw [if_neg h4] at h
  by_cases h5 : key = "right"
  · rw [if_pos h5] at h
    obtain ⟨rfl, -⟩ := Prod.mk.inj (Except.ok.inj h)
    exact ⟨rfl, rfl, Or.inl rfl, Or.inl rfl⟩
  rw [if_neg h5] at h
  by_cases h6 : key = "enter" ∨ key = " "
  · rw [if_pos h6] at h
    rcases index_ok_or_error m.games m.selectedGame with ⟨g, hg⟩ | herr
    · rw [hg] at h
      have e := congrArg Prod.fst (Except.ok.inj h)
      rw [launchGame_fst] at e
      subst e
      exact ⟨rfl, rfl, Or.inl rfl, Or.inl rfl⟩
    · rw [herr] at h
      cases h
  rw [if_neg h6] at h
  by_cases h7 : key = "t"
  · rw [if_pos h7] at h
    obtain ⟨rfl, -⟩ := Prod.mk.inj (Except.ok.inj h)
    exact ⟨rfl, rfl, Or.inl rfl, Or.inl rfl⟩
  rw [if_neg h7] at h
  by_cases h8 : key = "s"
  · rw [if_pos h8] at h
    obtain ⟨rfl, -⟩ := Prod.mk.inj (Except.ok.inj h)
    exact ⟨rfl, rfl, Or.inl rfl, Or.inl rfl⟩
  rw [if_neg h8] at h
  by_cases h9 : key = "o"
  · rw [if_pos h9] at h
    obtain ⟨rfl, -⟩ := Prod.mk.inj (Except.ok.inj h)
    exact ⟨rfl, rfl, Or.inl rfl, Or.inl rfl⟩
  rw [if_neg h9] at h
  by_cases h10 : key = "c"
  · rw [if_pos h10] at h
    obtain ⟨rfl, -⟩ := Prod.mk.inj (Except.ok.inj h)
    exact ⟨rfl, rfl, Or.inl rfl, Or.inl rfl⟩
  rw [if_neg h10] at h
  obtain ⟨rfl, -⟩ := Prod.mk.inj (Except.ok.inj h)
  exact ⟨rfl, rfl, Or.inl rfl, Or.inl rfl⟩

theorem tui_moves (env : Env) (m m' : Launcher) (key : String) (cmd : Option Cmd)
    (h : handleTUIAppsMenuKeys env m key = .ok (m', cmd)) :
    m'.games = m.games ∧ m'.tuiApps = m.tuiApps ∧
      (m'.selectedGame = m.selectedGame ∨
        (m.selectedGame > 0 ∧ m'.selectedGame = m.selectedGame - 1) ∨
        (m.selectedGame < (m.games.length : Int) - 1 ∧ m'.selectedGame = m.selectedGame + 1)) ∧
      (m'.selectedTUIApp = m.selectedTUIApp ∨
        (m.selectedTUIApp > 0 ∧ m'.selectedTUIApp = m.selectedTUIApp - 1) ∨
        (m.selectedTUIApp < (m.tuiApps.length : Int) - 1 ∧
          m'.selectedTUIApp = m.selectedTUIApp + 1)) := by
  unfold handleTUIAppsMenuKeys at h
  by_cases h1 : key = "q" ∨ key = "ctrl+c"
  · rw [if_pos h1] at h
    obtain ⟨rfl, -⟩ := Prod.mk.inj (Except.ok.inj h)
    exact ⟨rfl, rfl, Or.inl rfl, Or.inl rfl⟩
  rw [if_neg h1] at h
  by_cases h2 : key = "up" ∨ key = "k"
  · rw [if_pos h2] at h
    by_cases hc : m.selectedTUIApp > 0
    · rw [if_pos hc] at h
      obtain ⟨rfl, -⟩ := Prod.mk.inj (Except.ok.inj h)
      exact ⟨rfl, rfl, Or.inl rfl, Or.inr (Or.inl ⟨hc, rfl⟩)⟩
    · rw [if_neg hc] at h
      obtain ⟨rfl, -⟩ := Prod.mk.inj (Except.ok.inj h)
      exact ⟨rfl, rfl, Or.inl rfl, Or.inl rfl⟩
  rw [if_neg h2] at h
  by_cases h3 : key = "down" ∨ key = "j"
  · rw [if_pos h3] at h
    by_cases hc : m.selectedTUIApp < (m.tuiApps.length : Int) - 1
    · rw [if_pos hc] at h
      obtain ⟨rfl, -⟩ := Prod.mk.inj (Except.ok.inj h)
      exact ⟨rfl, rfl, Or.inl rfl, Or.inr (Or.inr ⟨hc, rfl⟩)⟩
    · rw [if_neg hc] at h
      obtain ⟨rfl, -⟩ := Prod.mk.inj (Except.ok.inj h)
      exact ⟨rfl, rfl, Or.inl rfl, Or.inl rfl⟩
  rw [if_neg h3] at h
  by_cases h4 : key = "left"
  · rw [if_pos h4] at h
    obtain ⟨rfl, -⟩ := Prod.mk.inj (Except.ok.inj h)
    exact ⟨rfl, rfl, Or.inl rfl, Or.inl rfl⟩
  rw [if_neg h4] at h
  by_cases h5 : key = "right"
  · rw [if_pos h5] at h
    obtain ⟨rfl, -⟩ := Prod.mk.inj (Except.ok.inj h)
    exact ⟨rfl, rfl, Or.inl rfl, Or.inl rfl⟩
  rw [if_neg h5] at h
  by_cases h6 : key = "enter" ∨ key = " "
  · rw [if_pos h6] at h
    rcases index_ok_or_error m.tuiApps m.selectedTUIApp with ⟨g, hg⟩ | herr
    · rw [hg] at h
      have e := congrArg Prod.fst (Except.ok.inj h)
      rw [launchGame_fst] at e
      subst e
      exact ⟨rfl, rfl, Or.inl rfl, Or.inl rfl⟩
    · rw [herr] at h
      cases h
  rw [if_neg h6] at h
  obtain ⟨rfl, -⟩ := Prod.mk.inj (Except.ok.inj h)
  exact ⟨rfl, rfl, Or.inl rfl, Or.inl rfl⟩

theorem handleKeyPress_moves (env : Env) (m m' : Launcher) (key : String) (cmd : Option Cmd)
    (h : handleKeyPress env m key = .ok (m', cmd)) :
    m'.games = m.games ∧ m'.tuiApps = m.tuiApps ∧
      (m'.selectedGame = m.selectedGame ∨
        (m.selectedGame > 0 ∧ m'.selectedGame = m.selectedGame - 1) ∨
        (m.selectedGame < (m.games.length : Int) - 1 ∧ m'.selectedGame = m.selectedGame + 1)) ∧
      (m'.selectedTUIApp = m.selectedTUIApp ∨
        (m.selectedTUIApp > 0 ∧ m'.selectedTUIApp = m.selectedTUIApp - 1) ∨
        (m.selectedTUIApp < (m.tuiApps.length : Int) - 1 ∧
          m'.selectedTUIApp = m.selectedTUIApp + 1)) := by
  unfold handleKeyPress at h
  split_ifs at h
  · exact main_moves env m m' key cmd h
  · exact tui_moves env m m' key cmd h
  all_goals
    first
      | unfold handleStatsMenuKeys at h
      | unfold handleOptionsMenuKeys at h
      | unfold handleCreditsMenuKeys at h
      | skip
    first
      | (split_ifs at h <;>
          (obtain ⟨rfl, -⟩ := Prod.mk.inj (Except.ok.inj h)
           exact ⟨rfl, rfl, Or.inl rfl, Or.inl rfl⟩))
      | (obtain ⟨rfl, -⟩ := Prod.mk.inj (Except.ok.inj h)
         exact ⟨rfl, rfl, Or.inl rfl, Or.inl rfl⟩)

theorem reachable_selection (env : Env) (m : Launcher) (h : Reachable env m) :
    0 ≤ m.selectedGame ∧ (m.selectedGame = 0 ∨ m.selectedGame < (m.games.length : Int)) ∧
      0 ≤ m.selectedTUIApp ∧
      (m.selectedTUIApp = 0 ∨ m.selectedTUIApp < (m.tuiApps.length : Int)) := by
  induction h with
  | init decode encode env0 fs file => simp [NewLauncher]
  | step msg _ hstep ih =>
    cases msg with
    | WindowSizeMsg w hgt =>
      obtain ⟨rfl, -⟩ := Prod.mk.inj (Except.ok.inj hstep)
      exact ih
    | Other text =>
      obtain ⟨rfl, -⟩ := Prod.mk.inj (Except.ok.inj hstep)
      exact ih
    | KeyMsg key =>
      obtain ⟨hg, ht, h1, h2⟩ := handleKeyPress_moves env _ _ key _ hstep
      rw [hg, ht]
      omega

/-- C4: in every session reachable from the initial one, when the active list
is empty (`games` on MainMenu, `tuiApps` on TUIAppsMenu) its selection index is
0 and an up or down key (`up`, `k`, `down`, `j`) returns the session unchanged,
with no command and no panic. -/
theorem updown_on_empty_list (env : Env) (m : Launcher) (hreach : Reachable env m)
    (key : String) (hkey : isUpDown key) :
    (m.menuState = MainMenu → m.games = [] →
      m.selectedGame = 0 ∧ handleKeyPress env m key = .ok (m, none)) ∧
    (m.menuState = TUIAppsMenu → m.tuiApps = [] →
      m.selectedTUIApp = 0 ∧ handleKeyPress env m key = .ok (m, none)) := by
  obtain ⟨a0, a1, b0, b1⟩ := reachable_selection env m hreach
  constructor
  · intro hs hempty
    rw [hempty] at a1
    have hz : m.selectedGame = 0 := by
      rcases a1 with h | h
      · exact h
      · simp at h; omega
    refine ⟨hz, ?_⟩
    rw [handleKeyPress_main env key hs]
    rcases hkey with hk | hk | hk | hk
    · rw [main_up env m (Or.inl hk), if_neg (by omega)]
    · rw [main_up env m (Or.inr hk), if_neg (by omega)]
    · rw [main_down env m (Or.inl hk), if_neg (by rw [hempty, hz]; decide)]
    · rw [main_down env m (Or.inr hk), if_neg (by rw [hempty, hz]; decide)]
  · intro hs hempty
    rw [hempty] at b1
    have hz : m.selectedTUIApp = 0 := by
      rcases b1 with h | h
      · exact h
      · simp at h; omega
    refine ⟨hz, ?_⟩
    rw [handleKeyPress_tui env key hs]
    rcases hkey with hk | hk | hk | hk
    · rw [tui_up env m (Or.inl hk), if_neg (by omega)]
    · rw [tui_up env m (Or.inr hk), if_neg (by omega)]
    · rw [tui_down env m (Or.inl hk), if_neg (by rw [hempty, hz]; decide)]
    · rw [tui_down env m (Or.inr hk), if_neg (by rw [hempty, hz]; decide)]

/-- C4 at the initial session (empty lists, TUIAppsMenu) and at the session
reached from it by `left` (empty lists, MainMenu). -/
theorem updown_on_empty_list_witness :
    (initialSession.selectedTUIApp = 0 ∧
        handleKeyPress sampleEnv initialSession "down" = .ok (initialSession, none)) ∧
      ({ initialSession with menuState := MainMenu }.selectedGame = 0 ∧
        handleKeyPress sampleEnv { initialSession with menuState := MainMenu } "k" =
          .ok ({ initialSession with menuState := MainMenu }, none)) :=
  have h0 : Reachable sampleEnv initialSession :=
    Reachable.init (fun _ => none) (fun _ => "") noHomeEnv ⟨false, id⟩ FileState.absent
  have h1 : Reachable sampleEnv { initialSession with menuState := MainMenu } :=
    Reachable.step (Msg.KeyMsg "left") h0 rfl
  ⟨(updown_on_empty_list sampleEnv initialSession h0 "down" (by decide)).2 rfl rfl,
    (updown_on_empty_list sampleEnv { initialSession with menuState := MainMenu } h1 "k"
      (by decide)).1 rfl rfl⟩

/-! ## C5: unmatched keys -/

/-- C5: a key that is not in the dispatch table of the current screen returns
the session unchanged (every field) with no command, and does not panic; this
holds for every value of `menuState`. -/
theorem unmatched_key_noop (env : Env) (m : Launcher) (key : String)
    (hkey : key ∉ dispatchKeys m.menuState) : handleKeyPress env m key = .ok (m, none) := by
  unfold dispatchKeys at hkey
  unfold handleKeyPress
  by_cases h0 : m.menuState = MainMenu
  · rw [if_pos h0] at hkey ⊢
    simp only [List.mem_cons, List.mem_singleton, List.not_mem_nil, or_false, not_or] at hkey
    obtain ⟨k1, k2, k3, k4, k5, k6, k7, k8, k9, k10, k11, k12, k13, k14⟩ := hkey
    simp [handleMainMenuKeys, k1, k2, k3, k4, k5, k6, k7, k8, k9, k10, k11, k12, k13, k14]
  rw [if_neg h0] at hkey ⊢
  by_cases h1 : m.menuState = TUIAppsMenu
  · rw [if_pos h1] at hkey ⊢
    simp only [List.mem_cons, List.mem_singleton, List.not_mem_nil, or_false, not_or] at hkey
    obtain ⟨k1, k2, k3, k4, k5, k6, k7, k8, k9, k10⟩ := hkey
    simp [handleTUIAppsMenuKeys, k1, k2, k3, k4, k5, k6, k7, k8, k9, k10]
  rw [if_neg h1] at hkey ⊢
  by_cases h2 : m.menuState = StatsMenu ∨ m.menuState = OptionsMenu ∨ m.menuState = CreditsMenu
  · rw [if_pos h2] at hkey
    simp only [List.mem_cons, List.mem_singleton, List.not_mem_nil, or_false, not_or] at hkey
    obtain ⟨k1, k2, k3⟩ := hkey
    split_ifs <;>
      simp [handleStatsMenuKeys, handleOptionsMenuKeys, handleCreditsMenuKeys, k1, k2, k3]
  · simp only [not_or] at h2
    rw [if_neg h2.1, if_neg h2.2.1, if_neg h2.2.2]

/-- C5 at the sample session: `x` on MainMenu, `s` on TUIAppsMenu and `enter`
on StatsMenu change nothing. -/
theorem unmatched_key_noop_witness :
    handleKeyPress sampleEnv (sampleSession MainMenu) "x" = .ok (sampleSession MainMenu, none) ∧
      handleKeyPress sampleEnv (sampleSession TUIAppsMenu) "s" =
        .ok (sampleSession TUIAppsMenu, none) ∧
      handleKeyPress sampleEnv (sampleSession StatsMenu) "enter" =
        .ok (sampleSession StatsMenu, none) :=
  ⟨unmatched_key_noop sampleEnv (sampleSession MainMenu) "x" (by decide),
    unmatched_key_noop sampleEnv (sampleSession TUIAppsMenu) "s" (by decide),
    unmatched_key_noop sampleEnv (sampleSession StatsMenu) "enter" (by decide)⟩

/-! ## C7: launch outcome messages -/

/-- C7: for an entry named `n`, the command `launchGame` returns carries a
callback that yields exactly `"Returned from " ++ n` when the child ends
without error and `"Error launching " ++ n ++ ": " ++ e` when it fails with
error text `e`; `Update` on either message returns the session unchanged in
every field, `menuState` included, and no command. -/
theorem launch_outcome_message (home : String) (env : Env) (m : Launcher) (game : GameEntry)
    (e : String) :
    (∃ argv, launchGame { homeDir := some home } m game = (m, some (Cmd.ExecProcess argv game)) ∧
      (Cmd.ExecProcess argv game).callback = some (execCallback game)) ∧
    execCallback game none = Msg.Other ("Returned from " ++ game.Name) ∧
    execCallback game (some e) = Msg.Other ("Error launching " ++ game.Name ++ ": " ++ e) ∧
    Update env m (execCallback game none) = .ok (m, none) ∧
    Update env m (execCallback game (some e)) = .ok (m, none) :=
  ⟨⟨_, rfl, rfl⟩, rfl, rfl, rfl, rfl⟩

/-! ## C8: when the handler asks to quit -/

/-- C8 as stated fails: with the home directory unresolvable, `enter` on a
non-empty TUIAppsMenu list returns the quit command although the key is neither
`q` nor `ctrl+c`. -/
theorem quit_iff_quit_key_counterexample :
    ¬ ((∃ m', handleKeyPress noHomeEnv (sampleSession TUIAppsMenu) "enter" =
          .ok (m', some Cmd.Quit)) ↔
        (((sampleSession TUIAppsMenu).menuState = MainMenu ∨
            (sampleSession TUIAppsMenu).menuState = TUIAppsMenu) ∧
          ("enter" = "q" ∨ "enter" = "ctrl+c"))) := by
  intro h
  have hq : ∃ m', handleKeyPress noHomeEnv (sampleSession TUIAppsMenu) "enter" =
      .ok (m', some Cmd.Quit) := ⟨sampleSession TUIAppsMenu, rfl⟩
  have hk := (h.mp hq).2
  revert hk
  decide

theorem launchGame_quit_iff (env : Env) (m : Launcher) (game : GameEntry) :
    (launchGame env m game).2 = some Cmd.Quit ↔ env.homeDir = none := by
  unfold launchGame
  cases env.homeDir <;> simp

theorem main_quit_iff (env : Env) (m : Launcher) (key : String) :
    (∃ m', handleMainMenuKeys env m key = .ok (m', some Cmd.Quit)) ↔
      (key = "q" ∨ key = "ctrl+c" ∨
        ((key = "enter" ∨ key = " ") ∧ env.homeDir = none ∧
          0 ≤ m.selectedGame ∧ m.selectedGame < (m.games.length : Int))) := by
  unfold handleMainMenuKeys
  by_cases h1 : key = "q" ∨ key = "ctrl+c"
  · rw [if_pos h1]
    exact ⟨fun _ => by tauto, fun _ => ⟨m, rfl⟩⟩
  rw [if_neg h1]
  by_cases h6 : key = "enter" ∨ key = " "
  · have n2 : ¬ (key = "up" ∨ key = "k") := by rcases h6 with rfl | rfl <;> decide
    have n3 : ¬ (key = "down" ∨ key = "j") := by rcases h6 with rfl | rfl <;> decide
    have n4 : ¬ key = "left" := by rcases h6 with rfl | rfl <;> decide
    have n5 : ¬ key = "right" := by rcases h6 with rfl | rfl <;> decide
    rw [if_neg n2, if_neg n3, if_neg n4, if_neg n5, if_pos h6]
    rcases index_ok_or_error m.games m.selectedGame with ⟨g, hg⟩ | herr
    · have hin := (index_ok_iff m.games m.selectedGame).mp ⟨g, hg⟩
      rw [hg]
      constructor
      · rintro ⟨m', hm⟩
        have e := congrArg Prod.snd (Except.ok.inj hm)
        exact Or.inr (Or.inr ⟨h6, (launchGame_quit_iff env m g).mp e, hin⟩)
      · rintro (h | h | ⟨_, hh, _⟩)
        · exact absurd (Or.inl h) h1
        · exact absurd (Or.inr h) h1
        · refine ⟨(launchGame env m g).1, ?_⟩
          rw [← (launchGame_quit_iff env m g).mpr hh]
    · have hout : ¬ (0 ≤ m.selectedGame ∧ m.selectedGame < (m.games.length : Int)) := by
        intro hin
        obtain ⟨g, hg⟩ := (index_ok_iff _ _).mpr hin
        rw [hg] at herr
        cases herr
      rw [herr]
      constructor
      · rintro ⟨m', hm⟩
        cases hm
      · rintro (h | h | ⟨_, _, hin⟩)
        · exact absurd (Or.inl h) h1
        · exact absurd (Or.inr h) h1
        · exact absurd hin hout
  · constructor
    · rintro ⟨m', hm⟩
      exfalso
      rw [if_neg h6] at hm
      split_ifs at hm <;> (have e := congrArg Prod.snd (Except.ok.inj hm); cases e)
    · rintro (h | h | ⟨h, _⟩)
      · exact absurd (Or.inl h) h1
      · exact absurd (Or.inr h) h1
      · exact absurd h h6

theorem tui_quit_iff (env : Env) (m : Launcher) (key : String) :
    (∃ m', handleTUIAppsMenuKeys env m key = .ok (m', some Cmd.Quit)) ↔
      (key = "q" ∨ key = "ctrl+c" ∨
        ((key = "enter" ∨ key = " ") ∧ env.homeDir = none ∧
          0 ≤ m.selectedTUIApp ∧ m.selectedTUIApp < (m.tuiApps.length : Int))) := by
  unfold handleTUIAppsMenuKeys
  by_cases h1 : key = "q" ∨ key = "ctrl+c"
  · rw [if_pos h1]
    exact ⟨fun _ => by tauto, fun _ => ⟨m, rfl⟩⟩
  rw [if_neg h1]
  by_cases h6 : key = "enter" ∨ key = " "
  · have n2 : ¬ (key = "up" ∨ key = "k") := by rcases h6 with rfl | rfl <;> decide
    have n3 : ¬ (key = "down" ∨ key = "j") := by rcases h6 with rfl | rfl <;> decide
    have n4 : ¬ key = "left" := by rcases h6 with rfl | rfl <;> decide
    have n5 : ¬ key = "right" := by rcases h6 with rfl | rfl <;> decide
    rw [if_neg n2, if_neg n3, if_neg n4, if_neg n5, if_pos h6]
    rcases index_ok_or_error m.tuiApps m.selectedTUIApp with ⟨g, hg⟩ | herr
    · have hin := (index_ok_iff m.tuiApps m.selectedTUIApp).mp ⟨g, hg⟩
      rw [hg]
      constructor
      · rintro ⟨m', hm⟩
        have e := congrArg Prod.snd (Except.ok.inj hm)
        exact Or.inr (Or.inr ⟨h6, (launchGame_quit_iff env m g).mp e, hin⟩)
      · rintro (h | h | ⟨_, hh, _⟩)
        · exact absurd (Or.inl h) h1
        · exact absurd (Or.inr h) h1
        · refine ⟨(launchGame env m g).1, ?_⟩
          rw [← (launchGame_quit_iff env m g).mpr hh]
    · have hout : ¬ (0 ≤ m.selectedTUIApp ∧ m.selectedTUIApp < (m.tuiApps.length : Int)) := by
        intro hin
        obtain ⟨g, hg⟩ := (index_ok_iff _ _).mpr hin
        rw [hg] at herr
        cases herr
      rw [herr]
      constructor
      · rintro ⟨m', hm⟩
        cases hm
      · rintro (h | h | ⟨_, _, hin⟩)
        · exact absurd (Or.inl h) h1
        · exact absurd (Or.inr h) h1
        · exact absurd hin hout
  · constructor
    · rintro ⟨m', hm⟩
      exfalso
      rw [if_neg h6] at hm
      split_ifs at hm <;> (have e := congrArg Prod.snd (Except.ok.inj hm); cases e)
    · rintro (h | h | ⟨h, _⟩)
      · exact absurd (Or.inl h) h1
      · exact absurd (Or.inr h) h1
      · exact absurd h h6

/-- C8 (amended): the key handler returns the quit command exactly when the
screen is MainMenu or TUIAppsMenu and either the key is `q` or `ctrl+c`, or the
key is a launch key (`enter`, space), the selection index lies within the
active list and the home directory cannot be resolved.  On every other screen
and for every other key no quit command is returned. -/
theorem quit_iff_quit_key_or_unresolved_home (env : Env) (m : Launcher) (key : String) :
    (∃ m', handleKeyPress env m key = .ok (m', some Cmd.Quit)) ↔
      ((m.menuState = MainMenu ∧
          (key = "q" ∨ key = "ctrl+c" ∨
            ((key = "enter" ∨ key = " ") ∧ env.homeDir = none ∧
              0 ≤ m.selectedGame ∧ m.selectedGame < (m.games.length : Int)))) ∨
        (m.menuState = TUIAppsMenu ∧
          (key = "q" ∨ key = "ctrl+c" ∨
            ((key = "enter" ∨ key = " ") ∧ env.homeDir = none ∧
              0 ≤ m.selectedTUIApp ∧ m.selectedTUIApp < (m.tuiApps.length : Int))))) := by
  by_cases h0 : m.menuState = MainMenu
  · have hne : ¬ m.menuState = TUIAppsMenu := by rw [h0]; decide
    rw [handleKeyPress_main env key h0, main_quit_iff]
    constructor
    · intro h; exact Or.inl ⟨h0, h⟩
    · rintro (⟨_, h⟩ | ⟨h, _⟩)
      · exact h
      · exact absurd h hne
  by_cases h1 : m.menuState = TUIAppsMenu
  · rw [handleKeyPress_tui env key h1, tui_quit_iff]
    constructor
    · intro h; exact Or.inr ⟨h1, h⟩
    · rintro (⟨h, _⟩ | ⟨_, h⟩)
      · exact absurd h h0
      · exact h
  constructor
  · rintro ⟨m', hm⟩
    exfalso
    unfold handleKeyPress at hm
    rw [if_neg h0, if_neg h1] at hm
    unfold handleStatsMenuKeys handleOptionsMenuKeys handleCreditsMenuKeys at hm
    split_ifs at hm <;> (have e := congrArg Prod.snd (Except.ok.inj hm); cases e)
  · rintro (⟨h, _⟩ | ⟨h, _⟩)
    · exact absurd h h0
    · exact absurd h h1

/-! ## C9: config fallback -/

/-- C9: `loadConfig` returns the built-in default configuration when the file
is absent, whatever the environment and whether or not the default can be
written; when the file is present and the decoder rejects its content, the
result is the same default configuration and the file is left as it was.  The
default has empty `games` and `tui_apps`, zero/empty global stats and theme
`retro`. -/
theorem load_config_fallback (decode : String → Option Config) (encode : Config → String)
    (env : Env) (fs : FsEnv) :
    (loadConfig decode encode env fs FileState.absent).1 = getDefaultConfig ∧
    (∀ content, decode content = none →
      loadConfig decode encode env fs (FileState.present content) =
        (getDefaultConfig, FileState.present content)) ∧
    getDefaultConfig.Games = [] ∧ getDefaultConfig.TUIApps = [] ∧
    getDefaultConfig.Stats.Global =
      { GamesPlayed := 0, TotalTimeSeconds := 0, AchievementsUnlocked := 0,
        FavoriteGame := "", LastPlayed := "" } ∧
    getDefaultConfig.Launcher.Theme = "retro" ∧ getDefaultConfig.Settings.Theme = "retro" := by
  refine ⟨?_, ?_, rfl, rfl, rfl, rfl, rfl⟩
  · unfold loadConfig
    cases env.homeDir with
    | none => rfl
    | some home =>
      simp only
      split_ifs <;> rfl
  · intro content hdec
    unfold loadConfig
    cases env.homeDir with
    | none => rfl
    | some home => simp only [hdec]

/-- C9 at a malformed file: the text `[1, 2` is rejected by the decoder,
the default configuration comes back and the file still holds that text. -/
theorem load_config_fallback_witness :
    loadConfig sampleDecode (fun _ => "") sampleEnv sampleFs
        (FileState.present "[1, 2") =
      (getDefaultConfig, FileState.present "[1, 2") :=
  (load_config_fallback sampleDecode (fun _ => "") sampleEnv sampleFs).2.1
    "[1, 2" (by decide)

/-! ## C10: column padding in the list renderers -/

/-- C10: what the list renderers do with a 28-byte name.  `30 - len(name) - 3`
is `-1`, `strings.Repeat` panics, and neither `renderTUIAppsMenu` on the opening
screen nor `renderMainMenu` after `left` produces a layout, whatever the styles
do; the description column is never reached. -/
theorem render_long_name_panics (st : Styles) (env : Env) :
    len longName = 28 ∧
    renderTUIAppsMenu st longNameSession = .error Panic.negativeRepeatCount ∧
    handleKeyPress env longNameSession "left" =
      .ok ({ longNameSession with menuState := MainMenu }, none) ∧
    renderMainMenu st { longNameSession with menuState := MainMenu } =
      .error Panic.negativeRepeatCount :=
  ⟨rfl, rfl, rfl, rfl⟩

/-! ## C6: the shell invocation -/

theorem splitSep_ne_nil (x : List Char) : splitSep x ≠ [] := by
  cases x with
  | nil => simp [splitSep]
  | cons c cs =>
    unfold splitSep
    split_ifs
    · simp
    · split <;> simp

theorem splitSep_append_slash (h r : List Char) :
    splitSep (h ++ '/' :: r) = splitSep h ++ splitSep r := by
  induction h with
  | nil => simp [splitSep]
  | cons c cs ih =>
    rw [List.cons_append]
    by_cases hc : c = '/'
    · subst hc
      simp [splitSep, ih]
    · have e1 : splitSep (c :: (cs ++ '/' :: r)) =
          match splitSep (cs ++ '/' :: r) with
          | [] => [[c]]
          | w :: ws => (c :: w) :: ws := by
        rw [splitSep, if_neg hc]
      have e2 : splitSep (c :: cs) =
          match splitSep cs with
          | [] => [[c]]
          | w :: ws => (c :: w) :: ws := by
        rw [splitSep, if_neg hc]
      rw [e1, e2, ih]
      cases hs : splitSep cs with
      | nil => exact absurd hs (splitSep_ne_nil cs)
      | cons w ws => rfl

theorem splitSep_no_slash (a : List Char) (ha : '/' ∉ a) : splitSep a = [a] := by
  induction a with
  | nil => rfl
  | cons c cs ih =>
    have hc : c ≠ '/' := fun e => ha (by simp [e])
    have hcs : '/' ∉ cs := fun e => ha (List.mem_cons_of_mem _ e)
    rw [splitSep, if_neg hc, ih hcs]

theorem splitSep_mem_no_slash (x : List Char) : ∀ w ∈ splitSep x, '/' ∉ w := by
  induction x with
  | nil => simp [splitSep]
  | cons c cs ih =>
    by_cases hc : c = '/'
    · subst hc
      intro w hw
      simp only [splitSep, if_true, List.mem_cons] at hw
      rcases hw with rfl | hw
      · simp
      · exact ih w hw
    · intro w hw
      rw [splitSep, if_neg hc] at hw
      cases hs : splitSep cs with
      | nil => exact absurd hs (splitSep_ne_nil cs)
      | cons v vs =>
        rw [hs] at hw ih
        simp only [List.mem_cons] at hw
        rcases hw with rfl | hw
        · intro hmem
          rcases List.mem_cons.mp hmem with e | e
          · exact hc e.symm
          · exact ih v (List.mem_cons_self _ _) e
        · exact ih w (List.mem_cons_of_mem _ hw)

theorem splitSep_joinSep (l : List (List Char)) (hne : l ≠ []) (hl : ∀ w ∈ l, '/' ∉ w) :
    splitSep (joinSep l) = l := by
  induction l with
  | nil => exact absurd rfl hne
  | cons a rest ih =>
    cases rest with
    | nil => exact splitSep_no_slash a (hl a (List.mem_cons_self _ _))
    | cons b rest' =>
      have e : joinSep (a :: b :: rest') = a ++ '/' :: joinSep (b :: rest') := rfl
      rw [e, splitSep_append_slash, splitSep_no_slash a (hl a (List.mem_cons_self _ _)),
        ih (by simp) (fun w hw => hl w (List.mem_cons_of_mem _ hw))]
      rfl

theorem joinSep_append (l q : List (List Char)) (hl : l ≠ []) (hq : q ≠ []) :
    joinSep (l ++ q) = joinSep l ++ '/' :: joinSep q := by
  induction l with
  | nil => exact absurd rfl hl
  | cons a rest ih =>
    cases rest with
    | nil =>
      cases q with
      | nil => exact absurd rfl hq
      | cons b q' => rfl
    | cons b rest' =>
      have e1 : joinSep (a :: b :: rest' ++ q) = a ++ '/' :: joinSep (b :: rest' ++ q) := rfl
      have e2 : joinSep (a :: b :: rest') = a ++ '/' :: joinSep (b :: rest') := rfl
      rw [e1, e2, ih (by simp)]
      simp

theorem CleanStack_mem {r : Bool} : ∀ s : List (List Char), CleanStack r s →
    ∀ e ∈ s, e ≠ [] ∧ e ≠ ['.'] ∧ '/' ∉ e := by
  intro s
  induction s with
  | nil => intro _ e he; cases he
  | cons a rest ih =>
    intro hs e he
    rcases List.mem_cons.mp he with rfl | he
    · exact hs.1
    · exact ih hs.2.2 e he

theorem CleanStack_append_right {r : Bool} : ∀ a b : List (List Char),
    CleanStack r (a ++ b) → CleanStack r b := by
  intro a
  induction a with
  | nil => intro b h; exact h
  | cons x xs ih => intro b h; exact ih b h.2.2

theorem CleanStack_push_proper {r : Bool} : ∀ (q : List (List Char)) (s : List (List Char)),
    CleanStack r s → (∀ e ∈ q, ProperElem e) → CleanStack r (q.reverse ++ s) := by
  intro q
  induction q with
  | nil => intro s hs _; exact hs
  | cons e q' ih =>
    intro s hs hq
    rw [List.reverse_cons, List.append_assoc]
    apply ih
    · obtain ⟨h1, h2, h3, h4⟩ := hq e (List.mem_cons_self _ _)
      exact ⟨⟨h1, h2, h4⟩, fun h => absurd h h3, hs⟩
    · exact fun x hx => hq x (List.mem_cons_of_mem _ hx)

theorem cleanStep_clean {r : Bool} (s : List (List Char)) (c : List Char)
    (hs : CleanStack r s) (hc : '/' ∉ c) : CleanStack r (cleanStep r s c) := by
  unfold cleanStep
  by_cases h1 : c = [] ∨ c = ['.']
  · rw [if_pos h1]; exact hs
  rw [if_neg h1]
  have hne : c ≠ [] ∧ c ≠ ['.'] ∧ '/' ∉ c := ⟨fun e => h1 (Or.inl e), fun e => h1 (Or.inr e), hc⟩
  by_cases h2 : c = ['.', '.']
  · rw [if_pos h2]
    cases s with
    | nil =>
      cases r with
      | true => exact hs
      | false => exact ⟨hne, fun _ => ⟨rfl, fun x hx => by cases hx⟩, trivial⟩
    | cons l rest =>
      by_cases h3 : l ≠ ['.', '.']
      · simp only [if_pos h3]; exact hs.2.2
      · simp only [if_neg h3]
        have hl : l = ['.', '.'] := not_not.mp h3
        obtain ⟨hr, hrest⟩ := hs.2.1 hl
        refine ⟨hne, fun _ => ⟨hr, ?_⟩, hs⟩
        intro x hx
        rcases List.mem_cons.mp hx with rfl | hx
        · exact hl
        · exact hrest x hx
  · rw [if_neg h2]
    exact ⟨hne, fun h => absurd h h2, hs⟩

theorem foldl_cleanStep_clean {r : Bool} : ∀ (cs : List (List Char)) (s : List (List Char)),
    CleanStack r s → (∀ c ∈ cs, '/' ∉ c) → CleanStack r (cs.foldl (cleanStep r) s) := by
  intro cs
  induction cs with
  | nil => intro s hs _; exact hs
  | cons c cs ih =>
    intro s hs hcs
    rw [List.foldl_cons]
    exact ih _ (cleanStep_clean s c hs (hcs c (List.mem_cons_self _ _)))
      (fun x hx => hcs x (List.mem_cons_of_mem _ hx))

theorem cleanStack_clean (x : List Char) :
    CleanStack (decide (x.head? = some '/')) (cleanStack x) :=
  foldl_cleanStep_clean (splitSep x) [] trivial (splitSep_mem_no_slash x)

theorem foldl_cleanStep_replay {r : Bool} : ∀ (l : List (List Char)) (acc : List (List Char)),
    CleanStack r (l.reverse ++ acc) → l.foldl (cleanStep r) acc = l.reverse ++ acc := by
  intro l
  induction l with
  | nil => intro acc _; rfl
  | cons e l' ih =>
    intro acc h
    rw [List.reverse_cons, List.append_assoc] at h
    have he : CleanStack r (e :: acc) := CleanStack_append_right _ _ h
    have hstep : cleanStep r acc e = e :: acc := by
      obtain ⟨⟨h1, h2, _⟩, hdd, _⟩ := he
      unfold cleanStep
      rw [if_neg (by rintro (e1 | e1); exact h1 e1; exact h2 e1)]
      by_cases h3 : e = ['.', '.']
      · rw [if_pos h3]
        obtain ⟨hr, hall⟩ := hdd h3
        cases acc with
        | nil => subst hr; rfl
        | cons a rest =>
          have ha : a = ['.', '.'] := hall a (List.mem_cons_self _ _)
          simp only [ha, ne_eq, not_true_eq_false, if_false]
      · rw [if_neg h3]
    rw [List.foldl_cons, hstep, ih (e :: acc) h, List.reverse_cons, List.append_assoc]
    rfl

theorem cleanStep_proper (r : Bool) (s : List (List Char)) (c : List Char)
    (hc : ProperElem c) : cleanStep r s c = c :: s := by
  obtain ⟨h1, h2, h3, _⟩ := hc
  unfold cleanStep
  rw [if_neg (by rintro (e | e); exact h1 e; exact h2 e), if_neg h3]

theorem joinSep_ne_nil : ∀ l : List (List Char), l ≠ [] → (∀ e ∈ l, e ≠ []) →
    joinSep l ≠ [] := by
  intro l hl hne
  cases l with
  | nil => exact absurd rfl hl
  | cons a rest =>
    have ha : a ≠ [] := hne a (List.mem_cons_self _ _)
    cases rest with
    | nil => exact ha
    | cons b rest' =>
      have e : joinSep (a :: b :: rest') = a ++ '/' :: joinSep (b :: rest') := rfl
      rw [e]
      simp

theorem joinSep_head_ne_slash : ∀ l : List (List Char), l ≠ [] →
    (∀ e ∈ l, e ≠ [] ∧ '/' ∉ e) → (joinSep l).head? ≠ some '/' := by
  intro l hl hne
  cases l with
  | nil => exact absurd rfl hl
  | cons a rest =>
    obtain ⟨ha, hs⟩ := hne a (List.mem_cons_self _ _)
    cases a with
    | nil => exact absurd rfl ha
    | cons c cs =>
      have hc : c ≠ '/' := fun e => hs (by simp [e])
      cases rest with
      | nil => simpa [joinSep] using hc
      | cons b rest' =>
        have e : joinSep ((c :: cs) :: b :: rest') = c :: (cs ++ '/' :: joinSep (b :: rest')) :=
          rfl
        rw [e]
        simpa using hc

theorem filepathClean_ne_nil (x : List Char) : filepathClean x ≠ [] := by
  unfold filepathClean
  by_cases h1 : x = []
  · rw [if_pos h1]; simp
  rw [if_neg h1]
  by_cases h2 : x.head? = some '/'
  · simp only [h2, if_true]; simp
  simp only [h2, if_false]
  by_cases h3 : joinSep (cleanStack x).reverse = []
  · rw [if_pos h3]; simp
  · rw [if_neg h3]; exact h3

theorem clean_fix_rooted (l : List (List Char)) (hl : l ≠ [])
    (hc : CleanStack true l.reverse) : filepathClean ('/' :: joinSep l) = '/' :: joinSep l := by
  have hslash : ∀ w ∈ l, '/' ∉ w := fun w hw =>
    (CleanStack_mem _ hc w (List.mem_reverse.mpr hw)).2.2
  have hstack : cleanStack ('/' :: joinSep l) = l.reverse := by
    unfold cleanStack
    have e1 : splitSep ('/' :: joinSep l) = [] :: l := by
      rw [splitSep, if_pos rfl, splitSep_joinSep l hl hslash]
    have e2 : decide (('/' :: joinSep l).head? = some '/') = true := by simp
    rw [e1, e2, List.foldl_cons]
    have e3 : cleanStep true [] [] = [] := rfl
    rw [e3, foldl_cleanStep_replay l [] (by simpa using hc)]
    simp
  unfold filepathClean
  rw [if_neg (by simp), hstack]
  simp

theorem clean_fix_unrooted (l : List (List Char)) (hl : l ≠ [])
    (hc : CleanStack false l.reverse) : filepathClean (joinSep l) = joinSep l := by
  have hmem : ∀ w ∈ l, w ≠ [] ∧ w ≠ ['.'] ∧ '/' ∉ w := fun w hw =>
    CleanStack_mem _ hc w (List.mem_reverse.mpr hw)
  have hne : joinSep l ≠ [] := joinSep_ne_nil l hl (fun e he => (hmem e he).1)
  have hhead : (joinSep l).head? ≠ some '/' :=
    joinSep_head_ne_slash l hl (fun e he => ⟨(hmem e he).1, (hmem e he).2.2⟩)
  have hstack : cleanStack (joinSep l) = l.reverse := by
    unfold cleanStack
    have e2 : decide ((joinSep l).head? = some '/') = false := by simpa using hhead
    rw [splitSep_joinSep l hl (fun w hw => (hmem w hw).2.2), e2,
      foldl_cleanStep_replay l [] (by simpa using hc)]
    simp
  unfold filepathClean
  rw [if_neg hne, hstack]
  simp only [List.reverse_reverse]
  rw [if_neg hhead, if_neg hne]

theorem clean_append_proper (x : List Char) (hx : x ≠ []) (hs : cleanStack x ≠ [])
    (q : List (List Char)) (hq0 : q ≠ []) (hq : ∀ e ∈ q, ProperElem e) :
    filepathClean (filepathClean x ++ '/' :: joinSep q) =
      filepathClean x ++ '/' :: joinSep q := by
  have hclean := cleanStack_clean x
  have hl : (cleanStack x).reverse ≠ [] := by simpa using hs
  have hlq : (cleanStack x).reverse ++ q ≠ [] := by simp [hq0]
  have hrev : ((cleanStack x).reverse ++ q).reverse = q.reverse ++ cleanStack x := by simp
  by_cases hr : x.head? = some '/'
  · have hB : filepathClean x = '/' :: joinSep (cleanStack x).reverse := by
      unfold filepathClean
      rw [if_neg hx]
      simp only [hr, if_true]
    have hd : decide (x.head? = some '/') = true := by simp [hr]
    rw [hd] at hclean
    rw [hB, List.cons_append, ← joinSep_append _ _ hl hq0]
    exact clean_fix_rooted _ hlq (by rw [hrev]; exact CleanStack_push_proper q _ hclean hq)
  · have hd : decide (x.head? = some '/') = false := by simp [hr]
    rw [hd] at hclean
    have hmem : ∀ e ∈ (cleanStack x).reverse, e ≠ [] := fun e he =>
      (CleanStack_mem _ hclean e (List.mem_reverse.mp he)).1
    have hB : filepathClean x = joinSep (cleanStack x).reverse := by
      unfold filepathClean
      rw [if_neg hx]
      simp only [hr, if_false]
      rw [if_neg (joinSep_ne_nil _ hl hmem)]
    rw [hB, ← joinSep_append _ _ hl hq0]
    exact clean_fix_unrooted _ hlq (by rw [hrev]; exact CleanStack_push_proper q _ hclean hq)

theorem join_sub_dir (home : String) :
    filepathJoin [tuiHubDir home, "sub/dir"] = tuiHubDir home ++ "/sub/dir" := by
  apply String.ext
  rw [String.data_append]
  show filepathJoinChars [(tuiHubDir home).data, "sub/dir".data] =
    (tuiHubDir home).data ++ "/sub/dir".data
  have hB : (tuiHubDir home).data =
      filepathJoinChars
        [home.data, "projects".data, "active".data, "daily_use".data, "tui-hub".data] := rfl
  rw [hB]
  by_cases hh : home.data = []
  · rw [hh]
    decide
  · have hx : filepathJoinChars
        [home.data, "projects".data, "active".data, "daily_use".data, "tui-hub".data] =
        filepathClean (home.data ++ '/' :: "projects/active/daily_use/tui-hub".data) := by
      rw [filepathJoinChars, if_neg hh]
      rfl
    rw [hx]
    have hne : home.data ++ '/' :: "projects/active/daily_use/tui-hub".data ≠ [] := by simp
    have hstack : cleanStack (home.data ++ '/' :: "projects/active/daily_use/tui-hub".data) ≠
        [] := by
      unfold cleanStack
      rw [splitSep_append_slash, List.foldl_append]
      have e : splitSep "projects/active/daily_use/tui-hub".data =
          ["projects".data, "active".data, "daily_use".data, "tui-hub".data] := by decide
      rw [e]
      simp only [List.foldl_cons, List.foldl_nil]
      rw [cleanStep_proper _ _ "tui-hub".data (by decide)]
      simp
    have hq : "sub/dir".data = joinSep ["sub".data, "dir".data] := by decide
    have hjoin : ∀ b : List Char, b ≠ [] → filepathJoinChars [b, "sub/dir".data] =
        filepathClean (b ++ '/' :: "sub/dir".data) := by
      intro b hb
      rw [filepathJoinChars, if_neg hb]
      rfl
    rw [hjoin _ (filepathClean_ne_nil _)]
    have hd : "/sub/dir".data = '/' :: "sub/dir".data := by decide
    rw [hd, hq]
    exact clean_append_proper _ hne hstack _ (by simp) (by decide)

/-- C6: with the home directory resolved, `launchGame` returns the session
unchanged and the command `sh -c <invocation>`.  The invocation is the entry's
command string alone when its path is empty or `./`; for every other path `p`
it is `"cd " ++ Join(base, p) ++ " && " ++ command`, where `base` is
`Join(home, "projects", "active", "daily_use", "tui-hub")`.  Path `""` with
command `echo hi` gives `echo hi`; path `sub/dir` gives
`cd <base>/sub/dir && <command>`. -/
theorem shell_invocation_shape (home : String) (m : Launcher) (game : GameEntry) :
    launchGame { homeDir := some home } m game =
      (m, some (Cmd.ExecProcess ["sh", "-c", shellInvocation home game] game)) ∧
    (game.Path = "" ∨ game.Path = "./" → shellInvocation home game = game.Command) ∧
    (game.Path ≠ "" → game.Path ≠ "./" →
      shellInvocation home game =
        "cd " ++ filepathJoin [tuiHubDir home, game.Path] ++ " && " ++ game.Command) ∧
    (game.Path = "" → game.Command = "echo hi" → shellInvocation home game = "echo hi") ∧
    (game.Path = "sub/dir" →
      shellInvocation home game =
        "cd " ++ (tuiHubDir home ++ "/sub/dir") ++ " && " ++ game.Command) := by
  refine ⟨rfl, ?_, ?_, ?_, ?_⟩
  · intro h
    unfold shellInvocation
    rw [if_neg (by rcases h with h | h <;> simp [h])]
  · intro h1 h2
    unfold shellInvocation
    rw [if_pos ⟨h1, h2⟩]
  · intro h hc
    unfold shellInvocation
    rw [if_neg (by simp [h]), hc]
  · intro h
    unfold shellInvocation
    rw [if_pos (by rw [h]; decide), h, join_sub_dir]

/-- C6 at three sample entries with home `/home/user`: path `""`, path `./`
and path `sub/dir`. -/
theorem shell_invocation_shape_witness :
    shellInvocation "/home/user" (sampleEntry "hi" "echo hi" "") = "echo hi" ∧
      shellInvocation "/home/user" (sampleEntry "notes" "notes" "./") = "notes" ∧
      shellInvocation "/home/user" (sampleEntry "snake" "./snake" "games/snake") =
        "cd " ++ filepathJoin [tuiHubDir "/home/user", "games/snake"] ++ " && " ++ "./snake" ∧
      shellInvocation "/home/user" (sampleEntry "hi" "echo hi" "sub/dir") =
        "cd " ++ (tuiHubDir "/home/user" ++ "/sub/dir") ++ " && " ++ "echo hi" ∧
      "cd " ++ (tuiHubDir "/home/user" ++ "/sub/dir") ++ " && " ++ "echo hi" =
        "cd /home/user/projects/active/daily_use/tui-hub/sub/dir && echo hi" :=
  ⟨(shell_invocation_shape "/home/user" initialSession (sampleEntry "hi" "echo hi" "")).2.2.2.1
      rfl rfl,
    (shell_invocation_shape "/home/user" initialSession (sampleEntry "notes" "notes" "./")).2.1
      (Or.inr rfl),
    (shell_invocation_shape "/home/user" initialSession
      (sampleEntry "snake" "./snake" "games/snake")).2.2.1 (by decide) (by decide),
    (shell_invocation_shape "/home/user" initialSession
      (sampleEntry "hi" "echo hi" "sub/dir")).2.2.2.2 rfl,
    by decide⟩

end TuiHub
